import Mathlib

/-!
Shallow embedding of the scraping pipeline of `amazon_scraper.py` and the
request handler of `api.py`.  Python strings are modelled as Lean `String`
(with helper operations over the underlying `List Char`), parsed HTML
documents as finite association maps from CSS selector strings to the
element (or container list) that BeautifulSoup would return for them, and
the HTTP transport as a pure function from (url, attempt index) to an
outcome.  Side effects (delays, issued requests) are made observable as an
explicit event trace.
-/

/-- Whitespace characters stripped by Python `str.strip()` (ASCII set). -/
def isPyWs (c : Char) : Bool :=
  c = ' ' || c = '\t' || c = '\n' || c = '\r' || c = '\x0b' || c = '\x0c'

/-- `str.strip()` on the character list: drop leading and trailing whitespace. -/
def pyStripL (s : List Char) : List Char :=
  ((s.dropWhile isPyWs).reverse.dropWhile isPyWs).reverse

/-- Python `str.strip()`. -/
def pyStrip (s : String) : String := ⟨pyStripL s.data⟩

/-- Fuelled worker for Python `str.replace`: replaces every non-overlapping
occurrence of `pat` left to right.  The fuel starts at the list length, which
bounds the number of steps.  (Never called with an empty pattern; the guard
makes the empty pattern a no-op rather than Python's insert-everywhere.) -/
def replaceAllAux (pat repl : List Char) : Nat → List Char → List Char
  | 0, s => s
  | _ + 1, [] => []
  | fuel + 1, c :: rest =>
    if (!pat.isEmpty) && pat.isPrefixOf (c :: rest) then
      repl ++ replaceAllAux pat repl fuel (List.drop pat.length (c :: rest))
    else
      c :: replaceAllAux pat repl fuel rest

/-- Python `s.replace(pat, repl)` on character lists. -/
def replaceAllL (pat repl s : List Char) : List Char :=
  replaceAllAux pat repl s.length s

/-- Python `s.replace(pat, repl)`. -/
def pyReplace (s pat repl : String) : String := ⟨replaceAllL pat.data repl.data s.data⟩

/-- Python `s.startswith(pre)`. -/
def strStartsWith (s pre : String) : Bool := pre.data.isPrefixOf s.data

/-- Whether `pat` occurs as a contiguous sublist of `s` (Python `pat in s`). -/
def containsSub (pat : List Char) : List Char → Bool
  | [] => pat.isPrefixOf []
  | c :: rest => pat.isPrefixOf (c :: rest) || containsSub pat rest

/-- Whether `pat` occurs as a substring of `s`. -/
def containsSubstr (pat s : String) : Bool := containsSub pat.data s.data

/-- A parsed HTML element: its text content (as `get_text` would return it
raw, before stripping) and its attribute map. -/
structure Element where
  text : String
  attrs : List (String × String)
deriving DecidableEq

/-- BeautifulSoup `element.get(key)`: attribute lookup. -/
def Element.get (e : Element) (key : String) : Option String :=
  (e.attrs.find? (fun a => a.1 == key)).map (·.2)

/-- A container fragment, modelled as what `select_one` returns on it for
each selector string: the first matching element, if any. -/
abbrev Fragment := List (String × Element)

/-- BeautifulSoup `fragment.select_one(sel)`. -/
def selectOne (c : Fragment) (sel : String) : Option Element :=
  (c.find? (fun x => x.1 == sel)).map (·.2)

/-- A parsed document, modelled as what `soup.select(sel)` returns for each
selector string: the list of matching container fragments (empty for
selectors not listed). -/
abbrev Document := List (String × List Fragment)

/-- BeautifulSoup `soup.select(sel)`. -/
def select (doc : Document) (sel : String) : List Fragment :=
  ((doc.find? (fun x => x.1 == sel)).map (·.2)).getD []

/-- One extracted product record (the dict built by `extract_product_info`). -/
structure Product where
  productName : String
  price : String
  link : String
  image_url : String
deriving DecidableEq

/-- Name selectors of `extract_product_info` (source order). -/
def name_selectors : List String :=
  ["h2.a-size-mini span",
   "h2 a span",
   ".a-size-base-plus",
   ".a-size-medium",
   "h2.s-size-mini span",
   "[data-cy=\"title-recipe-title\"]",
   ".a-size-mini span",
   "h3 a span",
   ".s-size-mini span"]

/-- Price selectors of `extract_product_info` (source order). -/
def price_selectors : List String :=
  [".a-price.a-text-price.a-size-medium.a-color-base .a-offscreen",
   ".a-price-whole",
   ".a-price .a-offscreen",
   ".a-price-symbol",
   ".a-price-range .a-offscreen",
   ".a-price-range",
   "[data-a-size=\"xl\"] .a-offscreen",
   ".a-price.a-text-price .a-offscreen"]

/-- Link selectors of `extract_product_info` (source order). -/
def link_selectors : List String :=
  ["h2.a-size-mini a",
   "h2 a",
   "[data-cy=\"title-recipe-title\"] a",
   ".a-link-normal[href*=\"/dp/\"]",
   "a[href*=\"/dp/\"]",
   ".a-link-normal"]

/-- Image selectors of `extract_product_info` (source order). -/
def img_selectors : List String :=
  [".s-image",
   ".a-dynamic-image",
   "img[data-src*=\"amazon\"]",
   "img[src*=\"amazon\"]",
   "img[data-src]",
   ".rush-component img"]

/-- Container strategy selectors of `parse_product_data` (source order). -/
def product_selectors : List String :=
  ["[data-component-type=\"s-search-result\"]",
   "[data-asin][data-component-type=\"s-search-result\"]",
   ".s-result-item[data-component-type=\"s-search-result\"]",
   "[data-cel-widget*=\"search_result\"]",
   ".s-result-item:not([data-component-type=\"s-search-result\"])"]

/-- `find_text_by_selectors`: first selector whose element has non-empty
stripped text wins; an element with blank text is skipped. -/
def find_text_by_selectors (container : Fragment) : List String → Option String
  | [] => none
  | sel :: rest =>
    match selectOne container sel with
    | some element =>
      let text := pyStrip element.text
      if text ≠ "" then some text else find_text_by_selectors container rest
    | none => find_text_by_selectors container rest

/-- `find_element_by_selectors`: first selector that matches any element
wins, regardless of the element's content. -/
def find_element_by_selectors (container : Fragment) : List String → Option Element
  | [] => none
  | sel :: rest =>
    match selectOne container sel with
    | some element => some element
    | none => find_element_by_selectors container rest

/-- Lines 255-256 of `clean_price`: strip, apply the two `replace` calls
(the `'$' -> '$'` one is a syntactic no-op kept for fidelity), strip again. -/
def clean_price_cleaned (price_text : String) : String :=
  pyStrip (pyReplace (pyReplace (pyStrip price_text) "$" "$") "Price:" "")

/-- Lines 259-260 of `clean_price`: prefix `$` when the cleaned text is
non-empty and lacks one. -/
def clean_price_prefixed (p : String) : String :=
  if p ≠ "" ∧ strStartsWith p "$" = false then "$" ++ p else p

/-- `clean_price`: strip, drop `Price:` fragments, prefix `$` when missing,
fall back to the sentinel when nothing is left. -/
def clean_price (price_text : String) : String :=
  if price_text = "" then "Price not available"
  else if clean_price_prefixed (clean_price_cleaned price_text) ≠ "" then
    clean_price_prefixed (clean_price_cleaned price_text)
  else "Price not available"

/-- `extract_product_info`: build the candidate record from one container;
accept it exactly when the located name is present and non-blank. -/
def extract_product_info (container : Fragment) : Option Product :=
  let name? := find_text_by_selectors container name_selectors
  let price :=
    match find_text_by_selectors container price_selectors with
    | some price_text => if price_text ≠ "" then clean_price price_text else "Price not available"
    | none => "Price not available"
  let link :=
    match find_element_by_selectors container link_selectors with
    | some link_element =>
      match link_element.get "href" with
      | some href =>
        if href ≠ "" then
          if strStartsWith href "http" then href else "https://www.amazon.in" ++ href
        else ""
      | none => ""
    | none => ""
  let image_url :=
    match find_element_by_selectors container img_selectors with
    | some img_element =>
      match img_element.get "src" with
      | some src => if src ≠ "" then src else ((img_element.get "data-src").getD "")
      | none => (img_element.get "data-src").getD ""
    | none => ""
  match name? with
  | some name => if (pyStrip name).length > 0 then some ⟨name, price, link, image_url⟩ else none
  | none => none

/-- Observable side effects of the fetch and orchestration layer: a call to
`human_delay(lo, hi)` or an HTTP request issued for `url` on a given
zero-based attempt index. -/
inductive Ev where
  | delay (lo hi : Nat)
  | request (url : String) (attempt : Nat)
deriving DecidableEq

/-- `human_delay(lo, hi)` as an observable event (the concrete random sleep
duration is irrelevant to the control flow). -/
def human_delay (min_delay max_delay : Nat) : Ev := Ev.delay min_delay max_delay

/-- An HTTP response: status code and (already parsed) document body. -/
structure Resp where
  status : Nat
  doc : Document
deriving DecidableEq

/-- Outcome of one `session.get` call: a response, or a raised
`requests.exceptions.RequestException`. -/
inductive TOut where
  | resp (r : Resp)
  | exn
deriving DecidableEq

/-- The HTTP transport: what `session.get(url)` yields on each attempt. -/
abbrev Transport := String → Nat → TOut

/-- Body of the `for attempt in range(retries)` loop of `make_request`:
`attempt` is the current index, `remaining` the number of iterations left.
Per attempt: delay (short bounds on the first attempt, long on retries),
issue the request; 200 returns immediately, 429 adds a long cooldown and
continues, any other status continues, a transport error continues with a
medium backoff unless this was the last allowed attempt. -/
def mrGo (t : Transport) (url : String) (retries : Int) : Nat → Nat → Option Resp × List Ev
  | _, 0 => (none, [])
  | attempt, remaining + 1 =>
    let d0 : Ev := if attempt = 0 then human_delay 2 5 else human_delay 5 10
    match t url attempt with
    | TOut.exn =>
      let extra : List Ev := if (attempt : Int) < retries - 1 then [human_delay 5 10] else []
      let rest := mrGo t url retries (attempt + 1) remaining
      (rest.1, d0 :: Ev.request url attempt :: (extra ++ rest.2))
    | TOut.resp r =>
      if r.status = 200 then (some r, [d0, Ev.request url attempt])
      else if r.status = 429 then
        let rest := mrGo t url retries (attempt + 1) remaining
        (rest.1, d0 :: Ev.request url attempt :: human_delay 10 20 :: rest.2)
      else
        let rest := mrGo t url retries (attempt + 1) remaining
        (rest.1, d0 :: Ev.request url attempt :: rest.2)

/-- `make_request(url, retries)`: bounded sequential retry loop; `retries`
is an integer so that nonpositive values give Python's empty `range`. -/
def make_request (t : Transport) (url : String) (retries : Int) : Option Resp × List Ev :=
  mrGo t url retries 0 retries.toNat

/-- Accepted records of one container strategy: run `extract_product_info`
over the first 20 matched containers and keep the candidates passing the
`product and product.get('productName')` check of the parse loop. -/
def acceptedOf (doc : Document) (sel : String) : List Product :=
  ((select doc sel).take 20).filterMap (fun c =>
    (extract_product_info c).bind (fun p => if p.productName ≠ "" then some p else none))

/-- Selector loop of `parse_product_data`: accumulate accepted records of
each strategy in turn and break as soon as the accumulated list is
non-empty. -/
def parse_loop (doc : Document) : List Product → List String → List Product
  | products, [] => products
  | products, sel :: rest =>
    let products' := products ++ acceptedOf doc sel
    if products'.isEmpty then parse_loop doc products' rest else products'

/-- `parse_product_data(soup)`. -/
def parse_product_data (doc : Document) : List Product :=
  parse_loop doc [] product_selectors

/-- `scrape_amazon_search(search_term)`: build the search URL from the
configured base URL, fetch it (3 attempts), parse on success, `[]` on
fetch failure. -/
def scrape_amazon_search (t : Transport) (base_url search_term : String) :
    List Product × List Ev :=
  let search_url := base_url ++ "/s?k=" ++ search_term ++ "&ref=sr_pg_1"
  match make_request t search_url 3 with
  | (some response, evs) => (parse_product_data response.doc, evs)
  | (none, evs) => ([], evs)

/-- `scrape_with_fallback()`: try the search terms in order; the first term
with a non-empty batch wins and stops the loop; an empty batch waits a
medium cooldown and moves on; exhaustion returns the empty list (a defined
success-with-no-data outcome, not an error). -/
def scrape_with_fallback (t : Transport) (base_url : String) :
    List String → List Product × List Ev
  | [] => ([], [])
  | search_term :: rest =>
    let r := scrape_amazon_search t base_url search_term
    if r.1.isEmpty then
      let r' := scrape_with_fallback t base_url rest
      (r'.1, r.2 ++ human_delay 3 7 :: r'.2)
    else r

/-- Country table of `api.search_products`. -/
def country_domains : List (String × String) :=
  [("US", "https://www.amazon.com"),
   ("UK", "https://www.amazon.co.uk"),
   ("CA", "https://www.amazon.ca"),
   ("IN", "https://www.amazon.in")]

/-- A raised Python exception reaching the `except Exception` handler of
`search_products` (only `fastapi.HTTPException` occurs in this body). -/
inductive PyExc where
  | httpException (status_code : Nat) (detail : String)
deriving DecidableEq

/-- Python `str(e)` for a starlette/fastapi `HTTPException`:
`f"{status_code}: {detail}"`. -/
def pyExcStr : PyExc → String
  | PyExc.httpException s d => toString s ++ ": " ++ d

/-- The `try` body of `api.search_products`: look the country up, raise
`HTTPException(400, ...)` when it is unsupported, otherwise configure the
scraper's base URL and delegate to `scrape_amazon_search`. -/
def search_products_body (t : Transport) (country query : String) :
    Except PyExc (List Product) × List Ev :=
  match (country_domains.find? (fun x => x.1 == country)).map (·.2) with
  | none => (Except.error (PyExc.httpException 400 ("Unsupported country code: " ++ country)), [])
  | some base_url =>
    let r := scrape_amazon_search t base_url query
    if r.1.isEmpty then (Except.ok [], r.2) else (Except.ok r.1, r.2)

/-- `api.search_products`: the blanket `except Exception` catches every
exception raised in the body — including the `HTTPException(400, ...)` for
an unsupported country — and re-raises it as `HTTPException(500, str(e))`. -/
def search_products (t : Transport) (country query : String) :
    Except (Nat × String) (List Product) × List Ev :=
  match search_products_body t country query with
  | (Except.error e, evs) => (Except.error (500, pyExcStr e), evs)
  | (Except.ok v, evs) => (Except.ok v, evs)

/-- Whether a selector structurally matches inside the fragment AND yields
non-empty stripped text — the notion of "match" under which
`find_text_by_selectors` accepts a pattern. -/
def textHit (container : Fragment) (sel : String) : Bool :=
  match selectOne container sel with
  | some element => pyStrip element.text != ""
  | none => false

/-- Predicate on events: any delay, or a request whose attempt index is at
most `k` (no attempt after the `k`-th). -/
def reqAtMost (k : Nat) : Ev → Prop
  | Ev.request _ a => a ≤ k
  | Ev.delay _ _ => True

/-- The event trace `scrape_with_fallback` produces: the traces of the
failing prefix of queries, each followed by the inter-query cooldown, then
the trace of the first successful query (nothing afterwards). -/
def fallbackTrace (f : String → List Ev) (emptyq : String → Bool) : List String → List Ev
  | [] => []
  | q :: rest =>
    if emptyq q then f q ++ human_delay 3 7 :: fallbackTrace f emptyq rest
    else f q

lemma dropWhile_head_not (p : Char → Bool) :
    ∀ (l : List Char) (c : Char), (l.dropWhile p).head? = some c → p c = false := by
  intro l
  induction l with
  | nil => intro c h; simp at h
  | cons a l ih =>
    intro c h
    rw [List.dropWhile_cons] at h
    by_cases hpa : p a = true
    · rw [if_pos hpa] at h; exact ih c h
    · rw [if_neg hpa] at h
      simp only [List.head?_cons, Option.some.injEq] at h
      subst h
      simpa using hpa

lemma dropWhile_eq_self_of_head (p : Char → Bool) (l : List Char)
    (h : ∀ c, l.head? = some c → p c = false) : l.dropWhile p = l := by
  cases l with
  | nil => rfl
  | cons a l => rw [List.dropWhile_cons, if_neg (by simp [h a rfl])]

lemma getLast?_dropWhile (p : Char → Bool) :
    ∀ l : List Char, l.dropWhile p ≠ [] → (l.dropWhile p).getLast? = l.getLast? := by
  intro l
  induction l with
  | nil => intro h; simp at h
  | cons a l ih =>
    intro h
    rw [List.dropWhile_cons] at h ⊢
    by_cases hpa : p a = true
    · rw [if_pos hpa] at h ⊢
      have hl : l ≠ [] := by
        intro he; subst he; simp at h
      obtain ⟨b, l2, rfl⟩ := List.exists_cons_of_ne_nil hl
      rw [ih h, List.getLast?_cons_cons]
    · rw [if_neg hpa]

lemma pyStripL_head (s : List Char) :
    ∀ c, (pyStripL s).head? = some c → isPyWs c = false := by
  intro c h
  unfold pyStripL at h
  rw [List.head?_reverse] at h
  have hne : (((s.dropWhile isPyWs).reverse).dropWhile isPyWs) ≠ [] := by
    intro he; rw [he] at h; simp at h
  rw [getLast?_dropWhile _ _ hne, List.getLast?_reverse] at h
  exact dropWhile_head_not isPyWs _ c h

lemma pyStripL_getLast (s : List Char) :
    ∀ c, (pyStripL s).getLast? = some c → isPyWs c = false := by
  intro c h
  unfold pyStripL at h
  rw [List.getLast?_reverse] at h
  exact dropWhile_head_not isPyWs _ c h

lemma pyStripL_eq_self (l : List Char)
    (h1 : ∀ c, l.head? = some c → isPyWs c = false)
    (h2 : ∀ c, l.getLast? = some c → isPyWs c = false) : pyStripL l = l := by
  unfold pyStripL
  rw [dropWhile_eq_self_of_head isPyWs l h1]
  rw [dropWhile_eq_self_of_head isPyWs l.reverse
    (by intro c hc; rw [List.head?_reverse] at hc; exact h2 c hc)]
  exact List.reverse_reverse l

lemma pyStripL_idem (s : List Char) : pyStripL (pyStripL s) = pyStripL s :=
  pyStripL_eq_self _ (pyStripL_head s) (pyStripL_getLast s)

lemma pyStripL_dollar_cons (l : List Char) (hne : l ≠ []) (hl : pyStripL l = l) :
    pyStripL ('$' :: l) = '$' :: l := by
  apply pyStripL_eq_self
  · intro c hc
    simp only [List.head?_cons, Option.some.injEq] at hc
    subst hc; decide
  · intro c hc
    obtain ⟨b, l2, rfl⟩ := List.exists_cons_of_ne_nil hne
    rw [List.getLast?_cons_cons] at hc
    exact pyStripL_getLast (b :: l2) c (by rwa [hl])

lemma replaceAllAux_self_single (c : Char) :
    ∀ (fuel : Nat) (s : List Char), replaceAllAux [c] [c] fuel s = s := by
  intro fuel
  induction fuel with
  | zero => intro s; rfl
  | succ fuel ih =>
    intro s
    cases s with
    | nil => rfl
    | cons a rest =>
      unfold replaceAllAux
      by_cases hca : ([c].isPrefixOf (a :: rest)) = true
      · have hac : c = a := by
          simp [List.isPrefixOf] at hca
          exact hca
        rw [if_pos (by simp [hca])]
        subst hac
        simp [ih rest]
      · rw [if_neg (by simp [hca])]
        rw [ih rest]

lemma replaceAllAux_of_not_contains (pat repl : List Char) :
    ∀ (fuel : Nat) (s : List Char), containsSub pat s = false →
      replaceAllAux pat repl fuel s = s := by
  intro fuel
  induction fuel with
  | zero => intro s _; rfl
  | succ fuel ih =>
    intro s h
    cases s with
    | nil => rfl
    | cons a rest =>
      unfold containsSub at h
      rw [Bool.or_eq_false_iff] at h
      unfold replaceAllAux
      rw [if_neg (by simp [h.1])]
      rw [ih rest h.2]

lemma pyStrip_data (s : String) : (pyStrip s).data = pyStripL s.data := rfl

lemma pyStrip_of_stripped (s : String) (h : pyStripL s.data = s.data) : pyStrip s = s :=
  String.ext (by rw [pyStrip_data, h])

lemma pyReplace_dollar_self (s : String) : pyReplace s "$" "$" = s :=
  String.ext (replaceAllAux_self_single '$' s.data.length s.data)

lemma pyReplace_of_not_contains (s pat repl : String) (h : containsSubstr pat s = false) :
    pyReplace s pat repl = s :=
  String.ext (replaceAllAux_of_not_contains pat.data repl.data s.data.length s.data h)

lemma clean_price_cleaned_stripped (x : String) :
    pyStripL (clean_price_cleaned x).data = (clean_price_cleaned x).data := by
  unfold clean_price_cleaned
  rw [pyStrip_data]
  exact pyStripL_idem _

lemma clean_price_shape (x : String) :
    clean_price x = "Price not available"
    ∨ ∃ l, (clean_price x).data = '$' :: l ∧ pyStripL ('$' :: l) = '$' :: l := by
  by_cases hx : x = ""
  · left; simp [clean_price, hx]
  · unfold clean_price
    rw [if_neg hx]
    have hp2strip := clean_price_cleaned_stripped x
    set p2 := clean_price_cleaned x with hp2
    rcases hd : p2.data with _ | ⟨c, l⟩
    · have hp2e : p2 = "" := String.ext (by rw [hd])
      left
      rw [hp2e]
      simp [clean_price_prefixed]
    · have hp2ne : p2 ≠ "" := by
        intro he; rw [he] at hd; simp at hd
      by_cases hc : c = '$'
      · subst hc
        have hsw : strStartsWith p2 "$" = true := by
          unfold strStartsWith
          rw [hd]
          simp [List.isPrefixOf]
        have hpref : clean_price_prefixed p2 = p2 := by
          unfold clean_price_prefixed
          rw [if_neg (by simp [hsw])]
        rw [hpref, if_pos hp2ne]
        right
        exact ⟨l, hd, by rw [← hd, hp2strip]⟩
      · have hsw : strStartsWith p2 "$" = false := by
          unfold strStartsWith
          rw [hd]
          simp [List.isPrefixOf, Ne.symm hc]
        have hpref : clean_price_prefixed p2 = "$" ++ p2 := by
          unfold clean_price_prefixed
          rw [if_pos ⟨hp2ne, hsw⟩]
        have hdata : ("$" ++ p2).data = '$' :: p2.data := by
          rw [String.data_append]; rfl
        rw [hpref]
        rw [if_pos (by intro he; rw [he] at hdata; simp at hdata)]
        right
        refine ⟨p2.data, hdata, ?_⟩
        exact pyStripL_dollar_cons p2.data (by rw [hd]; simp) hp2strip

/-- Claim C4 (counterexample): price sanitization is NOT idempotent on the
empty input: `clean_price ""` is the sentinel `"Price not available"`, and a
second application turns the sentinel into `"$Price not available"`. -/
theorem clean_price_not_idempotent_ce :
    clean_price (clean_price "") ≠ clean_price "" := by decide

/-- Claim C4 (amended): price sanitization is idempotent on every input
whose first sanitization does not yield the `"Price not available"`
sentinel and whose sanitized output contains no `"Price:"` occurrence
(the `replace` can manufacture a fresh `"Price:"` out of overlapping
fragments, and the sentinel itself is re-sanitized to
`"$Price not available"`). -/
theorem clean_price_idem_of_clean_output (x : String)
    (h1 : clean_price x ≠ "Price not available")
    (h2 : containsSubstr "Price:" (clean_price x) = false) :
    clean_price (clean_price x) = clean_price x := by
  obtain h | ⟨l, hdata, hstrip⟩ := clean_price_shape x
  · exact absurd h h1
  · set y := clean_price x with hy
    have hyne : y ≠ "" := by
      intro h; rw [h] at hdata; simp at hdata
    have hstrip_y : pyStrip y = y := pyStrip_of_stripped y (by rw [hdata]; exact hstrip)
    have hcleaned : clean_price_cleaned y = y := by
      unfold clean_price_cleaned
      rw [hstrip_y, pyReplace_dollar_self, pyReplace_of_not_contains y _ _ h2, hstrip_y]
    have hsw : strStartsWith y "$" = true := by
      unfold strStartsWith
      rw [hdata]
      simp [List.isPrefixOf]
    have hpref : clean_price_prefixed y = y := by
      unfold clean_price_prefixed
      rw [if_neg (by simp [hsw])]
    unfold clean_price
    rw [if_neg hyne, hcleaned, hpref, if_pos hyne]

/-- Claim C4 (witness): the amended idempotence applied at the concrete
input `"5"`, whose sanitization is `"$5"`. -/
theorem clean_price_idem_witness :
    (clean_price "5" ≠ "Price not available"
      ∧ containsSubstr "Price:" (clean_price "5") = false)
    ∧ clean_price (clean_price "5") = clean_price "5" :=
  ⟨⟨by decide, by decide⟩, clean_price_idem_of_clean_output "5" (by decide) (by decide)⟩

lemma string_length_pos (s : String) : 0 < s.length ↔ s ≠ "" := by
  constructor
  · intro h he
    subst he
    simp at h
  · intro h
    rcases hd : s.data with _ | ⟨c, l⟩
    · exact absurd (String.ext hd) h
    · show 0 < s.data.length
      rw [hd]; simp

/-- Claim C8: `find_text_by_selectors` returns exactly the text of the
earliest pattern in the ordered list that produces a non-empty stripped
text (`textHit`), so text obtained from a later pattern is never returned
once an earlier pattern has matched, and patterns after the first match
are never consulted (`List.find?` inspects nothing beyond its first hit). -/
theorem find_text_by_selectors_first_match :
    ∀ (container : Fragment) (sels : List String),
      find_text_by_selectors container sels
        = (sels.find? (textHit container)).bind
            (fun sel => (selectOne container sel).map (fun e => pyStrip e.text)) := by
  intro container sels
  induction sels with
  | nil => rfl
  | cons sel rest ih =>
    rcases hsel : selectOne container sel with _ | e
    · simp [find_text_by_selectors, List.find?_cons, textHit, hsel, ih]
    · by_cases he : pyStrip e.text = ""
      · simp [find_text_by_selectors, List.find?_cons, textHit, hsel, he, ih]
      · simp [find_text_by_selectors, List.find?_cons, textHit, hsel, he, ih]

/-- Claim C10: `find_element_by_selectors` returns the element of the
earliest structurally matching pattern regardless of that element's
content; `find_text_by_selectors`, by contrast, skips a matched element
whose stripped text is empty; consequently, when the earliest matching
link pattern yields an element without an `href` attribute, the extracted
record's link is the empty string no matter what later patterns would
have matched. -/
theorem find_element_by_selectors_first_element :
    (∀ (container : Fragment) (sels : List String),
      find_element_by_selectors container sels
        = (sels.find? (fun sel => (selectOne container sel).isSome)).bind (selectOne container))
    ∧ (∀ (container : Fragment) (sel : String) (rest : List String) (e : Element),
        selectOne container sel = some e → pyStrip e.text = "" →
        find_text_by_selectors container (sel :: rest) = find_text_by_selectors container rest)
    ∧ (∀ (container : Fragment) (e : Element) (p : Product),
        find_element_by_selectors container link_selectors = some e →
        e.get "href" = none →
        extract_product_info container = some p → p.link = "") := by
  refine ⟨?_, ?_, ?_⟩
  · intro container sels
    induction sels with
    | nil => rfl
    | cons sel rest ih =>
      rcases hsel : selectOne container sel with _ | e
      · simp [find_element_by_selectors, List.find?_cons, hsel, ih]
      · simp [find_element_by_selectors, List.find?_cons, hsel]
  · intro container sel rest e hsel he
    simp [find_text_by_selectors, hsel, he]
  · intro container e p h1 h2 hp
    simp only [extract_product_info, h1, h2] at hp
    rcases hname : find_text_by_selectors container name_selectors with _ | name
    · simp only [hname] at hp; exact absurd hp (by simp)
    · simp only [hname] at hp
      by_cases hl : (pyStrip name).length > 0
      · rw [if_pos hl] at hp
        simp only [Option.some.injEq] at hp
        subst hp
        rfl
      · rw [if_neg hl] at hp; exact absurd hp (by simp)

/-- Claim C10 (witness): a fragment whose earliest matching link pattern
(`h2.a-size-mini a`) yields an element with no `href` while a later
pattern (`h2 a`) yields an element with a valid `href`; the record is
accepted (it has a name) and its link is the empty string. -/
theorem find_element_by_selectors_first_element_witness :
    extract_product_info
        [("h2 a span", ⟨"Test", []⟩),
         ("h2.a-size-mini a", ⟨"", []⟩),
         ("h2 a", ⟨"", [("href", "https://www.amazon.in/dp/GOOD")]⟩)]
      = some ⟨"Test", "Price not available", "", ""⟩
    ∧ (⟨"Test", "Price not available", "", ""⟩ : Product).link = "" :=
  ⟨by decide,
   find_element_by_selectors_first_element.2.2
     [("h2 a span", ⟨"Test", []⟩),
      ("h2.a-size-mini a", ⟨"", []⟩),
      ("h2 a", ⟨"", [("href", "https://www.amazon.in/dp/GOOD")]⟩)]
     ⟨"", []⟩ ⟨"Test", "Price not available", "", ""⟩
     (by decide) (by decide) (by decide)⟩

/-- Claim C7: a candidate record is accepted iff the located name is
present and non-blank after stripping (a blank or missing name is
rejected no matter what the other fields hold), and a missing price, link
and image never cause extraction failure — they degrade to the
`"Price not available"` sentinel and empty strings. -/
theorem extract_product_info_acceptance :
    (∀ container : Fragment,
      (extract_product_info container).isSome = true
        ↔ ∃ n, find_text_by_selectors container name_selectors = some n ∧ pyStrip n ≠ "")
    ∧ (∀ (container : Fragment) (n : String),
        find_text_by_selectors container name_selectors = some n → pyStrip n ≠ "" →
        find_text_by_selectors container price_selectors = none →
        find_element_by_selectors container link_selectors = none →
        find_element_by_selectors container img_selectors = none →
        extract_product_info container = some ⟨n, "Price not available", "", ""⟩) := by
  constructor
  · intro container
    rcases hname : find_text_by_selectors container name_selectors with _ | name
    · simp only [extract_product_info, hname]
      simp
    · simp only [extract_product_info, hname]
      by_cases hl : (pyStrip name).length > 0
      · rw [if_pos hl]
        simp only [Option.isSome_some, true_iff]
        exact ⟨name, rfl, (string_length_pos (pyStrip name)).mp hl⟩
      · rw [if_neg hl]
        simp only [Option.isSome_none, Bool.false_eq_true, false_iff]
        rintro ⟨n, hn, hne⟩
        simp only [Option.some.injEq] at hn
        subst hn
        exact hl ((string_length_pos _).mpr hne)
  · intro container n hname hne hprice hlink himg
    simp only [extract_product_info, hname, hprice, hlink, himg]
    rw [if_pos ((string_length_pos (pyStrip n)).mpr hne)]

/-- Claim C7 (witness): a fragment carrying only a name extracts to an
accepted record whose price is the sentinel and whose link and image are
empty. -/
theorem extract_product_info_acceptance_witness :
    extract_product_info [("h2 a span", ⟨"Test", []⟩)]
      = some ⟨"Test", "Price not available", "", ""⟩ :=
  extract_product_info_acceptance.2 [("h2 a span", ⟨"Test", []⟩)] "Test"
    (by decide) (by decide) (by decide) (by decide) (by decide)

lemma reqAtMost_d0 (k a : Nat) :
    reqAtMost k (if a = 0 then human_delay 2 5 else human_delay 5 10) := by
  by_cases h : a = 0 <;> simp [h, human_delay, reqAtMost]

lemma mrGo_success (t : Transport) (url : String) (retries : Int) (r : Resp) :
    ∀ (remaining attempt k : Nat), attempt ≤ k → k < attempt + remaining →
      (∀ j, attempt ≤ j → j < k → ∀ r', t url j = TOut.resp r' → r'.status ≠ 200) →
      t url k = TOut.resp r → r.status = 200 →
      (mrGo t url retries attempt remaining).1 = some r
        ∧ ∀ e ∈ (mrGo t url retries attempt remaining).2, reqAtMost k e := by
  intro remaining
  induction remaining with
  | zero => intro attempt k h1 h2 _ _ _; omega
  | succ remaining ih =>
    intro attempt k h1 h2 hpre hk h200
    by_cases heq : attempt = k
    · subst heq
      unfold mrGo
      simp only [hk, if_pos h200]
      refine ⟨by simp, ?_⟩
      intro e he
      simp only [List.mem_cons, List.not_mem_nil, or_false] at he
      rcases he with rfl | rfl
      · exact reqAtMost_d0 attempt attempt
      · simp [reqAtMost]
    · have hlt : attempt < k := lt_of_le_of_ne h1 heq
      have hrec := ih (attempt + 1) k hlt (by omega)
        (fun j hj1 hj2 => hpre j (by omega) hj2) hk h200
      unfold mrGo
      cases hT : t url attempt with
      | exn =>
        simp only [hT]
        by_cases hc : (attempt : Int) < retries - 1
        · simp only [if_pos hc]
          refine ⟨hrec.1, ?_⟩
          intro e he
          simp only [List.mem_cons, List.singleton_append] at he
          rcases he with rfl | rfl | rfl | he
          · exact reqAtMost_d0 k attempt
          · simp only [reqAtMost]; omega
          · simp [human_delay, reqAtMost]
          · exact hrec.2 e he
        · simp only [if_neg hc]
          refine ⟨hrec.1, ?_⟩
          intro e he
          simp only [List.mem_cons, List.nil_append] at he
          rcases he with rfl | rfl | he
          · exact reqAtMost_d0 k attempt
          · simp only [reqAtMost]; omega
          · exact hrec.2 e he
      | resp r' =>
        have hne : r'.status ≠ 200 := hpre attempt le_rfl hlt r' hT
        simp only [hT, if_neg hne]
        by_cases h429 : r'.status = 429
        · simp only [if_pos h429]
          refine ⟨hrec.1, ?_⟩
          intro e he
          simp only [List.mem_cons] at he
          rcases he with rfl | rfl | rfl | he
          · exact reqAtMost_d0 k attempt
          · simp only [reqAtMost]; omega
          · simp [human_delay, reqAtMost]
          · exact hrec.2 e he
        · simp only [if_neg h429]
          refine ⟨hrec.1, ?_⟩
          intro e he
          simp only [List.mem_cons] at he
          rcases he with rfl | rfl | he
          · exact reqAtMost_d0 k attempt
          · simp only [reqAtMost]; omega
          · exact hrec.2 e he

lemma mrGo_exhaust (t : Transport) (url : String) (retries : Int) :
    ∀ (remaining attempt : Nat),
      (∀ j, attempt ≤ j → j < attempt + remaining → ∀ r, t url j = TOut.resp r → r.status ≠ 200) →
      (mrGo t url retries attempt remaining).1 = none := by
  intro remaining
  induction remaining with
  | zero => intro attempt _; rfl
  | succ remaining ih =>
    intro attempt h
    have hrec := ih (attempt + 1) (fun j hj1 hj2 r hr => h j (by omega) (by omega) r hr)
    unfold mrGo
    cases hT : t url attempt with
    | exn => simpa using hrec
    | resp r' =>
      have hne : r'.status ≠ 200 := h attempt le_rfl (by omega) r' hT
      simp only [hT, if_neg hne]
      by_cases h429 : r'.status = 429
      · simpa only [if_pos h429] using hrec
      · simpa only [if_neg h429] using hrec

/-- Claim C6: for the response sequence [429, 500, 200], `make_request`
with 3 allowed attempts returns the document obtained on the 3rd attempt
and with 2 allowed attempts returns the exhausted outcome `none`; in
general, a 200 on any attempt returns that response immediately with no
request issued after it, and exhausting the allowed attempts with no 200
yields `none`. -/
theorem make_request_fetch_policy :
    ((make_request (fun _ n => if n = 0 then TOut.resp ⟨429, []⟩
          else if n = 1 then TOut.resp ⟨500, []⟩
          else TOut.resp ⟨200, [("third", [])]⟩) "u" 3).1 = some ⟨200, [("third", [])]⟩
      ∧ (make_request (fun _ n => if n = 0 then TOut.resp ⟨429, []⟩
          else if n = 1 then TOut.resp ⟨500, []⟩
          else TOut.resp ⟨200, [("third", [])]⟩) "u" 2).1 = none)
    ∧ (∀ (t : Transport) (url : String) (retries : Int) (k : Nat) (r : Resp),
        (k : Int) < retries →
        (∀ j : Nat, j < k → ∀ r', t url j = TOut.resp r' → r'.status ≠ 200) →
        t url k = TOut.resp r → r.status = 200 →
        (make_request t url retries).1 = some r
          ∧ ∀ e ∈ (make_request t url retries).2, reqAtMost k e)
    ∧ (∀ (t : Transport) (url : String) (retries : Int),
        (∀ j : Nat, (j : Int) < retries → ∀ r, t url j = TOut.resp r → r.status ≠ 200) →
        (make_request t url retries).1 = none) := by
  refine ⟨⟨by decide, by decide⟩, ?_, ?_⟩
  · intro t url retries k r hk hpre h200 hst
    exact mrGo_success t url retries r retries.toNat 0 k (Nat.zero_le k) (by omega)
      (fun j _ hj => hpre j hj) h200 hst
  · intro t url retries hall
    exact mrGo_exhaust t url retries retries.toNat 0
      (fun j _ hj r hr => hall j (by omega) r hr)

/-- Claim C6 (witness): the exhaustion part of the policy applied to a
transport that always answers 503 with 4 allowed attempts. -/
theorem make_request_fetch_policy_witness :
    (make_request (fun _ _ => TOut.resp ⟨503, []⟩) "u" 4).1 = none :=
  make_request_fetch_policy.2.2 (fun _ _ => TOut.resp ⟨503, []⟩) "u" 4
    (fun j _ r hr => by
      injection hr with h
      rw [← h]
      decide)

/-- Claim C9: calling `make_request` with zero or negative `retries`
returns the failure outcome immediately: no HTTP request is issued and no
delay is performed (the event trace is empty). -/
theorem make_request_nonpositive_retries (t : Transport) (url : String) (retries : Int)
    (h : retries ≤ 0) : make_request t url retries = (none, []) := by
  unfold make_request
  rw [show retries.toNat = 0 by omega]
  rfl

/-- Claim C9 (witness): `make_request` at the concrete retry budget -3. -/
theorem make_request_nonpositive_retries_witness :
    make_request (fun _ _ => TOut.exn) "u" (-3) = (none, []) :=
  make_request_nonpositive_retries (fun _ _ => TOut.exn) "u" (-3) (by decide)

/-- Claim C5: `scrape_with_fallback` returns exactly the batch of the
first query whose batch is non-empty (`List.find?` over the ordered query
list), and its event trace is `fallbackTrace`: the traces of the failing
prefix plus the first successful query only, so no query after the first
success is ever attempted; when every query yields an empty batch the
result is the empty list — a defined outcome of the `List Product` return
type, not an error. -/
theorem scrape_with_fallback_first_success (t : Transport) (base_url : String) :
    ∀ terms : List String,
      (scrape_with_fallback t base_url terms).1
        = ((terms.find? (fun q => !(scrape_amazon_search t base_url q).1.isEmpty)).map
            (fun q => (scrape_amazon_search t base_url q).1)).getD []
      ∧ (scrape_with_fallback t base_url terms).2
        = fallbackTrace (fun q => (scrape_amazon_search t base_url q).2)
            (fun q => (scrape_amazon_search t base_url q).1.isEmpty) terms := by
  intro terms
  induction terms with
  | nil => exact ⟨rfl, rfl⟩
  | cons q rest ih =>
    by_cases he : (scrape_amazon_search t base_url q).1.isEmpty = true
    · constructor
      · simp [scrape_with_fallback, List.find?_cons, he, ih.1]
      · simp [scrape_with_fallback, fallbackTrace, List.find?_cons, he, ih.2]
    · constructor
      · simp [scrape_with_fallback, List.find?_cons, he]
      · simp [scrape_with_fallback, fallbackTrace, List.find?_cons, he]

lemma parse_loop_nil_acc (doc : Document) :
    ∀ sels : List String, parse_loop doc [] sels
      = ((sels.find? (fun sel => !(acceptedOf doc sel).isEmpty)).map (acceptedOf doc)).getD [] := by
  intro sels
  induction sels with
  | nil => rfl
  | cons sel rest ih =>
    by_cases he : (acceptedOf doc sel).isEmpty = true
    · have hnil : acceptedOf doc sel = [] := by
        cases hs : acceptedOf doc sel with
        | nil => rfl
        | cons a l => rw [hs] at he; simp at he
      simp [parse_loop, List.find?_cons, he, hnil, ih]
    · simp [parse_loop, List.find?_cons, he]

/-- Claim C1 (amended): when a container strategy matches containers but
every one of them is rejected, `parse_product_data` DOES fall through to
the next strategy: the batch is that of the first strategy in
`product_selectors` yielding at least one accepted record (each capped at
20 containers), and it is empty only if every strategy yields zero
accepted records. -/
theorem parse_product_data_first_accepting_strategy :
    ∀ doc : Document, parse_product_data doc
      = ((product_selectors.find? (fun sel => !(acceptedOf doc sel).isEmpty)).map
          (acceptedOf doc)).getD [] :=
  fun doc => parse_loop_nil_acc doc product_selectors

/-- Claim C1 (counterexample): a document in which the first container
strategy matches one container that fails name extraction while the
second strategy holds a container with a valid name; the claimed
behaviour (empty batch, later strategies never consulted) is violated:
the batch is the second strategy's record, hence non-empty. -/
theorem parse_product_data_falls_through_ce :
    select
        [("[data-component-type=\"s-search-result\"]",
          [[("h2 a", ⟨"no name here", [("href", "/dp/X")]⟩)]]),
         ("[data-asin][data-component-type=\"s-search-result\"]",
          [[("h2 a span", ⟨"Fallback Product", []⟩)]])]
        "[data-component-type=\"s-search-result\"]" ≠ []
    ∧ (∀ frag ∈ select
        [("[data-component-type=\"s-search-result\"]",
          [[("h2 a", ⟨"no name here", [("href", "/dp/X")]⟩)]]),
         ("[data-asin][data-component-type=\"s-search-result\"]",
          [[("h2 a span", ⟨"Fallback Product", []⟩)]])]
        "[data-component-type=\"s-search-result\"]",
        extract_product_info frag = none)
    ∧ parse_product_data
        [("[data-component-type=\"s-search-result\"]",
          [[("h2 a", ⟨"no name here", [("href", "/dp/X")]⟩)]]),
         ("[data-asin][data-component-type=\"s-search-result\"]",
          [[("h2 a span", ⟨"Fallback Product", []⟩)]])]
      = [⟨"Fallback Product", "Price not available", "", ""⟩] := by
  refine ⟨by decide, by decide, by decide⟩

/-- Claim C2: an unsupported country code makes zero fetch attempts (the
event trace is empty), but the endpoint does NOT fail with HTTP 400: the
`HTTPException(400, ...)` raised inside the `try` block is caught by the
blanket `except Exception` and re-raised as HTTP 500 with the stringified
400 error as its detail. -/
theorem search_products_unsupported_country_500 :
    ∀ (t : Transport) (query : String),
      search_products t "ZZ" query
        = (Except.error (500, "400: Unsupported country code: ZZ"), []) := by
  intro t query
  rfl

/-- Claim C3: link normalization prefixes the hardcoded origin
`https://www.amazon.in` to a relative path, ignoring the configured base
origin — a US request (base origin `https://www.amazon.com`) still yields
an `amazon.in` link, contradicting `normalizeLink(p, o) = o + p`.  The
remaining parts of the claim hold: an already-absolute URL passes through
unchanged and a missing link element yields the empty string. -/
theorem link_normalization_ignores_configured_origin :
    (search_products (fun _ _ => TOut.resp ⟨200,
          [("[data-component-type=\"s-search-result\"]",
            [[("h2 a span", ⟨"Test Product", []⟩),
              ("h2 a", ⟨"Test Product", [("href", "/dp/TEST123")]⟩)]])]⟩)
        "US" "laptop").1
      = Except.ok [⟨"Test Product", "Price not available",
          "https://www.amazon.in/dp/TEST123", ""⟩]
    ∧ ("https://www.amazon.in/dp/TEST123" : String)
        ≠ "https://www.amazon.com" ++ "/dp/TEST123"
    ∧ (extract_product_info
          [("h2 a span", ⟨"Abs Product", []⟩),
           ("h2 a", ⟨"x", [("href", "https://www.amazon.in/dp/ABS")]⟩)]).map (·.link)
        = some "https://www.amazon.in/dp/ABS"
    ∧ (extract_product_info [("h2 a span", ⟨"No Link", []⟩)]).map (·.link) = some "" := by
  refine ⟨by rfl, by decide, by decide, by decide⟩
